import Mathlib

/-!
Verification development for `filter_ips.py` of the CF-PROXYIP repository.

The script validates proxy candidates (`host:443#CC` lines) against a remote
probe service, keeping at most `MAX_PER_COUNTRY` accepted entries per country.
We embed the script shallowly:

* the probe service (`requests.get` + `resp.json()`) is an oracle
  `svc : String → ProbeOutcome`; `ProbeOutcome.err` covers every path that
  ends in the `except` branch of `check_proxy` (network failure, timeout,
  non-JSON body, and non-`dict` JSON — the latter raises `AttributeError`
  at `data.get("responseTime", -1)` before the happy path can finish);
* the module-global mutable state (`verified_cache`, the stop flag, the
  appended log file `proxy_check_log.txt`) is threaded explicitly through a
  `RunSt` record, together with a `probeLog` recording each network probe
  actually issued;
* the thread pool of `validate_country` is serialized: tasks are processed
  in a chosen completion order, each task running `check_proxy` to completion
  followed by the main-thread handler of its future.  Theorems quantify over
  arbitrary task lists, hence over every completion order.
-/

/-- A Python primitive value as it can appear in a JSON field. -/
inductive PyPrim where
  | pybool (b : Bool)
  | pyint (i : Int)
  | pystr (s : String)
deriving DecidableEq

/-- Python `str(v)` on a primitive value. -/
def pyStr : PyPrim → String
  | .pybool true => "True"
  | .pybool false => "False"
  | .pyint i => toString i
  | .pystr s => s

/-- Python `str(d.get(k))` where a missing key yields `None`, whose `str` is
`"None"`. -/
def pyStrOpt : Option PyPrim → String
  | some p => pyStr p
  | none => "None"

/-- The fields of a `dict` probe response that `check_proxy` reads
(`success`, `proxyIP`, `responseTime`).  `responseTime` is restricted to
integers, the only shape the script's latency arithmetic-free use observes. -/
structure ProbeData where
  success : Option PyPrim
  proxyIP : Option PyPrim
  responseTime : Option Int
deriving DecidableEq

/-- Outcome of one `requests.get` + `resp.json()` round trip:
`ok d` is a JSON `dict` with the fields of `d`; `err` is any raised
exception (unreachable service, timeout, malformed body, non-dict JSON). -/
inductive ProbeOutcome where
  | ok (d : ProbeData)
  | err
deriving DecidableEq

/-- Lines 31–35 of `filter_ips.py`: a response is valid iff it is a dict
(guaranteed by `ProbeData`), its `success` field is exactly `True`
(Python `is True`), and `str` of its `proxyIP` field differs from `"-1"`. -/
def checkValid (d : ProbeData) : Bool :=
  d.success == some (.pybool true) && pyStrOpt d.proxyIP != "-1"

/-- Line 36: `delay = data.get("responseTime", -1)`. -/
def delayOf (d : ProbeData) : Int :=
  d.responseTime.getD (-1)

/-- The `verified_cache` dict: association list, most recent entry first. -/
def Cache : Type := List (String × (Bool × Int))

/-- Dict lookup in `verified_cache` (first matching key). -/
def cacheLookup : List (String × (Bool × Int)) → String → Option (Bool × Int)
  | [], _ => none
  | (k, v) :: rest, a => if a = k then some v else cacheLookup rest a

/-- The mutable state of one run: the shared cache, the per-country stop
flag, the probes actually issued (network calls), the appended log file
`proxy_check_log.txt`, and the country's `valid_ips` list. -/
structure RunSt where
  cache : List (String × (Bool × Int))
  flag : Bool
  probeLog : List String
  logFile : List String
  accepted : List String
deriving DecidableEq

/-- The log line written at line 47 of the script. -/
def logLine (valid : Bool) (ip_port : String) (delay : Int) : String :=
  "[" ++ (if valid then "✅ 有效" else "❌ 无效") ++ "] " ++ ip_port ++
    "  延迟: " ++ toString delay ++ "ms"

/-- Lines 18–54, `check_proxy(ip_port, stop_flag)`, serialized.
Returns the `(valid, delay)` pair and the updated state.  The stop flag is
polled first; then the cache; a cache miss issues the probe (recorded in
`probeLog`), caches the outcome, and on the non-exception path appends to
the log file when the stop flag is still unset. -/
def check_proxy (svc : String → ProbeOutcome) (st : RunSt) (ip_port : String) :
    (Bool × Int) × RunSt :=
  if st.flag then ((false, -1), st)
  else
    match cacheLookup st.cache ip_port with
    | some r => (r, st)
    | none =>
      let st1 : RunSt := { st with probeLog := st.probeLog ++ [ip_port] }
      match svc ip_port with
      | .ok d =>
        let v := checkValid d
        let delay := delayOf d
        let st2 : RunSt := { st1 with cache := (ip_port, (v, delay)) :: st1.cache }
        let st3 : RunSt :=
          if st2.flag then st2
          else { st2 with logFile := st2.logFile ++ [logLine v ip_port delay] }
        ((v, delay), st3)
      | .err =>
        let st2 : RunSt := { st1 with cache := (ip_port, (false, -1)) :: st1.cache }
        ((false, -1), st2)

/-- `line.split('#')[0]`: the longest prefix of `line` before the first
`'#'` (the whole line when there is none). -/
def addrOf (line : String) : String :=
  ⟨line.data.takeWhile (fun c => c ≠ '#')⟩

/-- The accepted-entry format of line 103: `f"{ip}#延迟:{delay}ms"` applied
to the original candidate line. -/
def fmtLine (line : String) (delay : Int) : String :=
  line ++ "#延迟:" ++ toString delay ++ "ms"

/-- Lines 99–106: the main-thread handler of one completed future of
`validate_country` (body of the `as_completed` loop, under the lock). -/
def handleResult (max_per_country : Nat) (st : RunSt) (line : String)
    (valid : Bool) (delay : Int) : RunSt :=
  if valid then
    if st.accepted.length < max_per_country then
      let st1 : RunSt := { st with accepted := st.accepted ++ [fmtLine line delay] }
      if max_per_country ≤ st1.accepted.length then { st1 with flag := true }
      else st1
    else st
  else st

/-- One task of `validate_country`, serialized: run
`check_proxy(ip.split('#')[0], stop_flag)` to completion, then handle the
future's result. -/
def countryStep (svc : String → ProbeOutcome) (max_per_country : Nat)
    (st : RunSt) (line : String) : RunSt :=
  let r := check_proxy svc st (addrOf line)
  handleResult max_per_country r.2 line r.1.1 r.1.2

/-- The `as_completed` loop of `validate_country` over a given completion
order of the submitted candidate lines. -/
def runCountry (svc : String → ProbeOutcome) (max_per_country : Nat)
    (st : RunSt) (lines : List String) : RunSt :=
  lines.foldl (countryStep svc max_per_country) st

/-- The state at entry of `validate_country`: the shared cache and log file
as left by earlier countries, a fresh unset stop flag, no probes recorded,
an empty `valid_ips`. -/
def initSt (cache : List (String × (Bool × Int))) (logFile : List String) : RunSt :=
  { cache := cache, flag := false, probeLog := [], logFile := logFile, accepted := [] }

/-- Lines 86–111, `validate_country(country, ip_lines, max_per_country)`,
serialized over a completion order `lines` of the submitted candidates. -/
def validate_country (svc : String → ProbeOutcome) (max_per_country : Nat)
    (cache : List (String × (Bool × Int))) (lines : List String) : RunSt :=
  runCountry svc max_per_country (initSt cache []) lines

/-- Lines 58–84, `validate_batch(ip_batch, stop_flag)`, serialized: probe
the batch's addresses in completion order, collect the valid entries (each
formatted from the first batch line whose text starts with the probed
address), breaking once the stop flag is observed set. -/
def validate_batch (svc : String → ProbeOutcome) (st : RunSt) :
    List String → List String → RunSt × List String
  | _, [] => (st, [])
  | ip_batch, line :: rest =>
    let r := check_proxy svc st (addrOf line)
    let found :=
      match ip_batch.find? (fun l => (addrOf line).isPrefixOf l) with
      | some l => if r.1.1 then [fmtLine l r.1.2] else []
      | none => []
    if r.2.flag then (r.2, found)
    else
      let next := validate_batch svc r.2 ip_batch rest
      (next.1, found ++ next.2)

/-- Python `str.strip()` whitespace predicate (ASCII whitespace). -/
def pyIsSpace (c : Char) : Bool :=
  c = ' ' || c = '\t' || c = '\n' || c = '\r' || c = '\x0b' || c = '\x0c'

/-- Python `s.strip()`: drop whitespace from both ends. -/
def pyStrip (s : String) : String :=
  ⟨((s.data.dropWhile pyIsSpace).reverse.dropWhile pyIsSpace).reverse⟩

/-- Python `s.split('\n')` (after the outer strip), keeping empty pieces. -/
def splitLinesAux (cur : List Char) : List Char → List (List Char)
  | [] => [cur.reverse]
  | c :: rest => if c = '\n' then cur.reverse :: splitLinesAux [] rest
                 else splitLinesAux (c :: cur) rest

/-- Line 116: `input_data.strip().split('\n')`. -/
def splitLines (s : String) : List String :=
  (splitLinesAux [] (pyStrip s).data).map fun l => ⟨l⟩

/-- The regex class `[A-Z]`. -/
def isUpperAZ (c : Char) : Bool :=
  'A' ≤ c && c ≤ 'Z'

/-- Lines 123–125: `re.search(r'#([A-Z]{2})$', line)` — the line must end
in `'#'` followed by exactly two uppercase letters; on a match the captured
country code is returned. -/
def countryOf (l : List Char) : Option String :=
  match l.reverse with
  | b :: a :: h :: _ =>
      if h = '#' && isUpperAZ a && isUpperAZ b then some ⟨[a, b]⟩ else none
  | _ => none

/-- Executable substring test used by `parseLine` (`':443#' in line`). -/
def containsSub (pat : List Char) : List Char → Bool
  | [] => pat.isEmpty
  | c :: rest => pat.isPrefixOf (c :: rest) || containsSub pat rest

/-- Lines 119–126: strip the line, drop it when empty or lacking the
substring `":443#"`, then keep it iff the trailing country-code regex
matches, yielding the country and the kept (stripped) line. -/
def parseLine (line : String) : Option (String × String) :=
  if (pyStrip line).data = [] then none
  else if !containsSub ":443#".data (pyStrip line).data then none
  else match countryOf (pyStrip line).data with
       | some c => some (c, pyStrip line)
       | none => none

/-- `country_map[country].append(line)` on an insertion-ordered dict
(`defaultdict(list)`): extend the country's bucket, or create it at the
end. -/
def addToGroup : List (String × List String) → String → String → List (String × List String)
  | [], c, line => [(c, [line])]
  | (c', ls) :: rest, c, line =>
      if c' = c then (c', ls ++ [line]) :: rest
      else (c', ls) :: addToGroup rest c line

/-- Lines 117–126: build `country_map` from the input lines. -/
def groupLines (lines : List String) : List (String × List String) :=
  lines.foldl
    (fun m line =>
      match parseLine line with
      | none => m
      | some cl => addToGroup m cl.1 cl.2) []

/-- `country_map[c]` for a key of the map. -/
def findGroup (m : List (String × List String)) (c : String) : List String :=
  match m with
  | [] => []
  | (c', ls) :: rest => if c' = c then ls else findGroup rest c

/-- Lines 128–131: run `validate_country` for each country in
`sorted(country_map.keys())`, threading the shared cache and log file, and
record each country's accepted bucket. -/
def runCountries (svc : String → ProbeOutcome) (max_per_country : Nat)
    (m : List (String × List String)) (cache : List (String × (Bool × Int)))
    (logFile : List String) : List String → List (String × List String)
  | [] => []
  | c :: cs =>
      let st := runCountry svc max_per_country (initSt cache logFile) (findGroup m c)
      (c, st.accepted) :: runCountries svc max_per_country m st.cache st.logFile cs

/-- Lines 114–133 up to the per-country results: the `(country, accepted)`
groups of `filter_ips(input_data, max_per_country)`, in output order. -/
def filterIpsGroups (svc : String → ProbeOutcome) (max_per_country : Nat)
    (input_data : String) : List (String × List String) :=
  runCountries svc max_per_country (groupLines (splitLines input_data)) [] []
    (List.insertionSort (fun a b => a ≤ b)
      ((groupLines (splitLines input_data)).map Prod.fst))

/-- Line 133: the final joined output of `filter_ips`. -/
def filter_ips (svc : String → ProbeOutcome) (max_per_country : Nat)
    (input_data : String) : String :=
  String.intercalate "\n" ((filterIpsGroups svc max_per_country input_data).flatMap Prod.snd)

/-- Modelled from the spec: the Quota Scheduler algorithm of §4.3 as the
claim states it, driving the source's `validate_batch` (the batch worker of
lines 58–84, which the script itself never calls).  The candidate sequence
is partitioned into successive batches of size `W`; one batch is probed at
a time; its valid lines are admitted up to the quota (`外部控制` truncation
noted in the `validate_batch` docstring); the next batch starts only if the
quota is not yet met and unprocessed candidates remain.  Recursion is by
fuel, initially the number of candidates (enough whenever `W ≥ 1`). -/
def batchedRun (svc : String → ProbeOutcome) (W Q : Nat) :
    Nat → RunSt → List String → RunSt
  | 0, st, _ => st
  | _, st, [] => st
  | fuel + 1, st, lines =>
      if Q ≤ st.accepted.length then st
      else
        let b := validate_batch svc st (lines.take W) (lines.take W)
        let admitted := b.2.take (Q - st.accepted.length)
        let st1 : RunSt := { b.1 with accepted := st.accepted ++ admitted }
        batchedRun svc W Q fuel st1 (lines.drop W)

/-- Modelled from the spec: the whole batched Quota Scheduler of §4.3 for
one country, starting from the shared cache with an unset stop flag. -/
def batched_scheduler (svc : String → ProbeOutcome) (W Q : Nat)
    (cache : List (String × (Bool × Int))) (lines : List String) : RunSt :=
  batchedRun svc W Q lines.length (initSt cache []) lines

/-- `MAX_THREADS = 5`, the script's per-batch concurrency width. -/
def MAX_THREADS : Nat := 5

/-- Test oracle: every address answers a valid probe with latency 50. -/
def svcOkAll : String → ProbeOutcome := fun _ =>
  .ok { success := some (.pybool true), proxyIP := some (.pystr "1.2.3.4"), responseTime := some 50 }

/-- Test oracle: every probe raises (unreachable/timeout/malformed). -/
def svcErrAll : String → ProbeOutcome := fun _ => .err

/-- Six candidate lines of one country, more than one batch width. -/
def lines6 : List String :=
  ["a.a:443#US", "b.b:443#US", "c.c:443#US", "d.d:443#US", "e.e:443#US", "f.f:443#US"]

/-- A state whose stop flag is set while the cache holds a valid result. -/
def stCachedStop : RunSt :=
  { cache := [("1.2.3.4:443", (true, 50))], flag := true, probeLog := [],
    logFile := [], accepted := ["x.x:443#US#延迟:50ms"] }

/-- The state after a quota-1 run accepted `a.a:443`: flag set, result cached. -/
def stMet : RunSt := validate_country svcOkAll 1 [] ["a.a:443#US"]

/-- A fresh state with an unset flag and one cached valid address. -/
def stWarm : RunSt :=
  { cache := [("a.a:443", (true, 50))], flag := false, probeLog := [],
    logFile := [], accepted := [] }

/-! ### Basic step lemmas -/

theorem check_proxy_accepted (svc : String → ProbeOutcome) (st : RunSt) (ip : String) :
    (check_proxy svc st ip).2.accepted = st.accepted := by
  unfold check_proxy
  split
  · rfl
  · split
    · rfl
    · split
      · dsimp only
        split <;> rfl
      · rfl

theorem check_proxy_flag (svc : String → ProbeOutcome) (st : RunSt) (ip : String) :
    (check_proxy svc st ip).2.flag = st.flag := by
  unfold check_proxy
  split
  · rfl
  · split
    · rfl
    · split
      · dsimp only
        split <;> rfl
      · rfl

theorem check_proxy_of_flag (svc : String → ProbeOutcome) (st : RunSt) (ip : String)
    (h : st.flag = true) : check_proxy svc st ip = ((false, -1), st) := by
  unfold check_proxy
  simp [h]

theorem countryStep_of_flag (svc : String → ProbeOutcome) (Q : Nat) (st : RunSt)
    (line : String) (h : st.flag = true) :
    countryStep svc Q st line = st := by
  unfold countryStep
  rw [check_proxy_of_flag svc st (addrOf line) h]
  rfl

theorem runCountry_of_flag (svc : String → ProbeOutcome) (Q : Nat) (st : RunSt)
    (lines : List String) (h : st.flag = true) :
    runCountry svc Q st lines = st := by
  induction lines with
  | nil => rfl
  | cons l rest ih =>
      unfold runCountry
      rw [List.foldl_cons, countryStep_of_flag svc Q st l h]
      exact ih

/-- Invariant preservation for a `foldl` loop. -/
theorem foldl_inv {α σ : Type} (P : σ → Prop) (f : σ → α → σ)
    (hstep : ∀ s a, P s → P (f s a)) :
    ∀ (l : List α) (s : σ), P s → P (List.foldl f s l) := by
  intro l
  induction l with
  | nil => intro s hs; exact hs
  | cons a rest ih => intro s hs; exact ih (f s a) (hstep s a hs)

/-- The admission invariant of `validate_country`: the accepted list never
exceeds the quota, and the stop flag is set exactly when a (positive) quota
has been reached. -/
def QuotaInv (Q : Nat) (st : RunSt) : Prop :=
  st.accepted.length ≤ Q ∧
    (st.flag = true → st.accepted.length = Q) ∧
    (1 ≤ Q → st.accepted.length = Q → st.flag = true)

theorem handleResult_inv (Q : Nat) (st : RunSt) (line : String) (v : Bool) (d : Int)
    (h : QuotaInv Q st) : QuotaInv Q (handleResult Q st line v d) := by
  obtain ⟨h1, h2, h3⟩ := h
  unfold handleResult QuotaInv
  split
  · split
    · next hlt =>
      dsimp only
      split
      · next hge =>
        simp only [List.length_append, List.length_cons, List.length_nil] at hge ⊢
        exact ⟨by omega, fun _ => by omega, fun _ _ => trivial⟩
      · next hge =>
        simp only [List.length_append, List.length_cons, List.length_nil] at hge ⊢
        refine ⟨by omega, fun hf => ?_, fun _ hq => ?_⟩
        · exact absurd (h2 hf) (by omega)
        · omega
    · exact ⟨h1, h2, h3⟩
  · exact ⟨h1, h2, h3⟩

theorem countryStep_inv (svc : String → ProbeOutcome) (Q : Nat) (st : RunSt)
    (line : String) (h : QuotaInv Q st) :
    QuotaInv Q (countryStep svc Q st line) := by
  unfold countryStep
  apply handleResult_inv
  unfold QuotaInv
  rw [check_proxy_accepted, check_proxy_flag]
  exact h

theorem runCountry_inv (svc : String → ProbeOutcome) (Q : Nat) (st : RunSt)
    (lines : List String) (h : QuotaInv Q st) :
    QuotaInv Q (runCountry svc Q st lines) :=
  foldl_inv (QuotaInv Q) (countryStep svc Q) (countryStep_inv svc Q) lines st h

theorem initSt_inv (Q : Nat) (cache : List (String × (Bool × Int)))
    (logFile : List String) : QuotaInv Q (initSt cache logFile) := by
  refine ⟨by simp [initSt], fun hf => by simp [initSt] at hf, fun hq h0 => ?_⟩
  simp [initSt] at h0
  omega

/-- **C1.** For every run of the validator (any probe oracle, any starting
cache, any completion order of the candidate lines) and every quota `Q`,
`validate_country` returns an accepted list whose length is at least `0`
and at most `Q`. -/
theorem validate_country_quota_bound (svc : String → ProbeOutcome) (Q : Nat)
    (cache : List (String × (Bool × Int))) (lines : List String) :
    0 ≤ (validate_country svc Q cache lines).accepted.length ∧
      (validate_country svc Q cache lines).accepted.length ≤ Q :=
  ⟨Nat.zero_le _, (runCountry_inv svc Q (initSt cache []) lines (initSt_inv Q cache [])).1⟩

/-! ### C4: early stop once the quota is met -/

/-- **C4.** In any serialized run from the start state, the moment the
accepted list of a country reaches a positive quota `Q`, the stop flag is
set; processing any further candidates changes nothing at all (no probe is
issued, nothing is appended, the accepted count stays at `Q`); and the
admission guard never appends to an accepted list that already holds `Q`
entries, so a result completing after the signal is never appended. -/
theorem quota_met_stops_run (svc : String → ProbeOutcome) (Q : Nat)
    (cache : List (String × (Bool × Int))) (lines₁ lines₂ : List String)
    (hQ : 1 ≤ Q) (hmet : (validate_country svc Q cache lines₁).accepted.length = Q) :
    (validate_country svc Q cache lines₁).flag = true ∧
      runCountry svc Q (validate_country svc Q cache lines₁) lines₂ =
        validate_country svc Q cache lines₁ ∧
      (∀ (st : RunSt) (line : String) (v : Bool) (d : Int),
        Q ≤ st.accepted.length → (handleResult Q st line v d).accepted = st.accepted) := by
  have hflag : (validate_country svc Q cache lines₁).flag = true :=
    (runCountry_inv svc Q (initSt cache []) lines₁ (initSt_inv Q cache [])).2.2 hQ hmet
  refine ⟨hflag, runCountry_of_flag svc Q _ lines₂ hflag, ?_⟩
  intro st line v d hfull
  unfold handleResult
  split
  · split
    · next hlt => omega
    · rfl
  · rfl

/-- Witness for C4 at a concrete input: quota 1 is met by the first
candidate; the run over a second candidate list is a no-op. -/
theorem quota_met_stops_run_witness :
    (1 ≤ 1 ∧ (validate_country svcOkAll 1 [] ["a.a:443#US"]).accepted.length = 1) ∧
      ((validate_country svcOkAll 1 [] ["a.a:443#US"]).flag = true ∧
        runCountry svcOkAll 1 (validate_country svcOkAll 1 [] ["a.a:443#US"]) ["b.b:443#US"] =
          validate_country svcOkAll 1 [] ["a.a:443#US"] ∧
        (∀ (st : RunSt) (line : String) (v : Bool) (d : Int),
          1 ≤ st.accepted.length → (handleResult 1 st line v d).accepted = st.accepted)) :=
  ⟨⟨by decide, by decide⟩,
    quota_met_stops_run svcOkAll 1 [] ["a.a:443#US"] ["b.b:443#US"] (by decide) (by decide)⟩

/-! ### C5: probe failures are downgraded, never propagated -/

/-- **C5.** When the probe of an uncached address fails (service
unreachable, malformed response, timeout — all the `except` paths), the
probe client returns `(False, -1)` instead of raising, records the address
as invalid in the cache, and the scheduler simply continues with the
remaining candidates. -/
theorem check_proxy_err_downgraded (svc : String → ProbeOutcome) (st : RunSt)
    (ip : String) (hflag : st.flag = false)
    (hmiss : cacheLookup st.cache ip = none) (herr : svc ip = .err) :
    (check_proxy svc st ip).1 = (false, -1) ∧
      cacheLookup (check_proxy svc st ip).2.cache ip = some (false, -1) ∧
      (∀ (Q : Nat) (line : String) (rest : List String),
        runCountry svc Q st (line :: rest) =
          runCountry svc Q (countryStep svc Q st line) rest) := by
  refine ⟨?_, ?_, fun Q line rest => rfl⟩
  · unfold check_proxy
    simp [hflag, hmiss, herr]
  · unfold check_proxy
    simp [hflag, hmiss, herr, cacheLookup]

/-- Witness for C5: a failing oracle on a fresh state. -/
theorem check_proxy_err_downgraded_witness :
    ((initSt [] []).flag = false ∧ cacheLookup (initSt [] []).cache "a.a:443" = none ∧
        svcErrAll "a.a:443" = .err) ∧
      ((check_proxy svcErrAll (initSt [] []) "a.a:443").1 = (false, -1) ∧
        cacheLookup (check_proxy svcErrAll (initSt [] []) "a.a:443").2.cache "a.a:443" =
          some (false, -1) ∧
        (∀ (Q : Nat) (line : String) (rest : List String),
          runCountry svcErrAll Q (initSt [] []) (line :: rest) =
            runCountry svcErrAll Q (countryStep svcErrAll Q (initSt [] []) line) rest)) :=
  ⟨⟨rfl, rfl, rfl⟩,
    check_proxy_err_downgraded svcErrAll (initSt [] []) "a.a:443" rfl rfl rfl⟩

/-! ### C9: the validity predicate on probe responses -/

/-- **C9.** A dict probe response is judged valid exactly when its
`success` field is the boolean `True` and the string form of its `proxyIP`
field differs from `"-1"`; in particular `success = True` together with
`proxyIP = "-1"` (or the integer `-1`) is judged invalid. -/
theorem checkValid_characterization :
    (∀ d : ProbeData,
        checkValid d = true ↔ d.success = some (.pybool true) ∧ pyStrOpt d.proxyIP ≠ "-1") ∧
      checkValid { success := some (.pybool true), proxyIP := some (.pystr "-1"), responseTime := some 50 } = false ∧
      checkValid { success := some (.pybool true), proxyIP := some (.pyint (-1)), responseTime := some 50 } = false := by
  refine ⟨fun d => ?_, by decide, by decide⟩
  unfold checkValid
  simp [Bool.and_eq_true, bne_iff_ne]

/-- Witness for C9: a response with `success = True` and a real `proxyIP`
is valid by the characterization. -/
theorem checkValid_characterization_witness :
    checkValid { success := some (.pybool true), proxyIP := some (.pystr "1.2.3.4"), responseTime := some 50 } = true :=
  (checkValid_characterization.1 _).mpr ⟨rfl, by decide⟩

/-! ### C10: the stop-flag short circuit of `check_proxy` -/

/-- **C10.** If the stop flag is already set when `check_proxy` is invoked,
it returns `(False, -1)` immediately and the state — cache, probe log, log
file — is completely unchanged; the cache is not consulted, so even an
address whose cached result is valid is reported invalid. -/
theorem check_proxy_stop_short_circuit (svc : String → ProbeOutcome) (st : RunSt)
    (ip : String) (h : st.flag = true) :
    check_proxy svc st ip = ((false, -1), st) :=
  check_proxy_of_flag svc st ip h

/-- Witness for C10: the flag is set, `1.2.3.4:443` has a cached valid
result, yet the call reports invalid and touches nothing. -/
theorem check_proxy_stop_short_circuit_witness :
    (stCachedStop.flag = true ∧
        cacheLookup stCachedStop.cache "1.2.3.4:443" = some (true, 50)) ∧
      check_proxy svcOkAll stCachedStop "1.2.3.4:443" = ((false, -1), stCachedStop) :=
  ⟨⟨rfl, by decide⟩, check_proxy_stop_short_circuit svcOkAll stCachedStop "1.2.3.4:443" rfl⟩

/-! ### C2: quota 0 -/

theorem handleResult_zero (st : RunSt) (line : String) (v : Bool) (d : Int) :
    handleResult 0 st line v d = st := by
  unfold handleResult
  split
  · split
    · next hlt => omega
    · rfl
  · rfl

theorem countryStep_zero (svc : String → ProbeOutcome) (st : RunSt) (line : String) :
    countryStep svc 0 st line = (check_proxy svc st (addrOf line)).2 := by
  unfold countryStep
  rw [handleResult_zero]

theorem check_proxy_miss_probeLog (svc : String → ProbeOutcome) (st : RunSt) (ip : String)
    (hflag : st.flag = false) (hmiss : cacheLookup st.cache ip = none) :
    (check_proxy svc st ip).2.probeLog = st.probeLog ++ [ip] := by
  unfold check_proxy
  cases hsvc : svc ip with
  | ok d => simp [hflag, hmiss, hsvc]
  | err => simp [hflag, hmiss, hsvc]

theorem check_proxy_miss_cache (svc : String → ProbeOutcome) (st : RunSt) (ip x : String)
    (hflag : st.flag = false) (hmiss : cacheLookup st.cache ip = none) :
    cacheLookup (check_proxy svc st ip).2.cache x =
      if x = ip then some (check_proxy svc st ip).1 else cacheLookup st.cache x := by
  unfold check_proxy
  cases hsvc : svc ip with
  | ok d => by_cases hx : x = ip <;> simp [hflag, hmiss, hsvc, cacheLookup, hx]
  | err => by_cases hx : x = ip <;> simp [hflag, hmiss, hsvc, cacheLookup, hx]

theorem check_proxy_hit (svc : String → ProbeOutcome) (st : RunSt) (ip : String)
    (r : Bool × Int) (hflag : st.flag = false)
    (hhit : cacheLookup st.cache ip = some r) :
    check_proxy svc st ip = (r, st) := by
  unfold check_proxy
  rw [hflag]
  simp [hhit]

theorem runCountry_zero_probeLog (svc : String → ProbeOutcome) :
    ∀ (lines : List String) (st : RunSt), st.flag = false →
      ∀ a, a ∈ (runCountry svc 0 st lines).probeLog ↔
        a ∈ st.probeLog ∨ (a ∈ lines.map addrOf ∧ cacheLookup st.cache a = none) := by
  intro lines
  induction lines with
  | nil => intro st _ a; simp [runCountry]
  | cons line rest ih =>
    intro st hflag a
    have hstep : runCountry svc 0 st (line :: rest) =
        runCountry svc 0 (countryStep svc 0 st line) rest := rfl
    rw [hstep, countryStep_zero]
    cases hmiss : cacheLookup st.cache (addrOf line) with
    | some r =>
      rw [check_proxy_hit svc st (addrOf line) r hflag hmiss]
      rw [ih st hflag a]
      by_cases hx : a = addrOf line
      · subst hx
        simp [hmiss]
      · simp [hx]
    | none =>
      have hflag2 : (check_proxy svc st (addrOf line)).2.flag = false := by
        rw [check_proxy_flag]; exact hflag
      rw [ih _ hflag2 a, check_proxy_miss_probeLog svc st (addrOf line) hflag hmiss]
      rw [check_proxy_miss_cache svc st (addrOf line) a hflag hmiss]
      by_cases hx : a = addrOf line
      · subst hx
        simp [hmiss]
      · simp [hx]

theorem runCountry_zero_accepted (svc : String → ProbeOutcome) (st : RunSt)
    (lines : List String) :
    (runCountry svc 0 st lines).accepted = st.accepted := by
  induction lines generalizing st with
  | nil => rfl
  | cons line rest ih =>
    have hstep : runCountry svc 0 st (line :: rest) =
        runCountry svc 0 (countryStep svc 0 st line) rest := rfl
    rw [hstep, ih, countryStep_zero, check_proxy_accepted]

/-- **C2 counterexample.** With quota `0` and the single candidate
`a.a:443#US`, the validator returns no output lines but still issues a
probe for `a.a:443`: the claim's "zero probe calls" is false. -/
theorem quota_zero_counterexample :
    (validate_country svcOkAll 0 [] ["a.a:443#US"]).accepted = [] ∧
      (validate_country svcOkAll 0 [] ["a.a:443#US"]).probeLog = ["a.a:443"] ∧
      (validate_country svcOkAll 0 [] ["a.a:443#US"]).probeLog ≠ [] := by
  refine ⟨by decide, by decide, by decide⟩

/-- **C2 amended.** With quota `0` the validator yields zero output lines,
but probe calls are still issued: an address is probed exactly when some
candidate line carries it and it is not already cached (the stop flag is
never set when the quota is `0`, so no candidate is skipped). -/
theorem quota_zero_behavior (svc : String → ProbeOutcome)
    (cache : List (String × (Bool × Int))) (lines : List String) :
    (validate_country svc 0 cache lines).accepted = [] ∧
      ∀ a, a ∈ (validate_country svc 0 cache lines).probeLog ↔
        (a ∈ lines.map addrOf ∧ cacheLookup cache a = none) := by
  unfold validate_country
  constructor
  · exact runCountry_zero_accepted svc (initSt cache []) lines
  · intro a
    rw [runCountry_zero_probeLog svc lines (initSt cache []) rfl a]
    simp [initSt]

/-- Witness for C2 amended: one uncached candidate is probed, an already
cached address is not. -/
theorem quota_zero_behavior_witness :
    (validate_country svcOkAll 0 [("b.b:443", (true, 50))] ["a.a:443#US", "b.b:443#US"]).accepted = [] ∧
      ("a.a:443" ∈ (validate_country svcOkAll 0 [("b.b:443", (true, 50))] ["a.a:443#US", "b.b:443#US"]).probeLog ↔
        ("a.a:443" ∈ (["a.a:443#US", "b.b:443#US"] : List String).map addrOf ∧
          cacheLookup [("b.b:443", (true, 50))] "a.a:443" = none)) :=
  ⟨(quota_zero_behavior svcOkAll [("b.b:443", (true, 50))] ["a.a:443#US", "b.b:443#US"]).1,
    (quota_zero_behavior svcOkAll [("b.b:443", (true, 50))] ["a.a:443#US", "b.b:443#US"]).2 "a.a:443"⟩

/-! ### C3: the code does not process candidates in batches -/

theorem handleResult_probeLog (Q : Nat) (st : RunSt) (line : String) (v : Bool) (d : Int) :
    (handleResult Q st line v d).probeLog = st.probeLog := by
  unfold handleResult
  split
  · split
    · dsimp only
      split <;> rfl
    · rfl
  · rfl

theorem handleResult_cache (Q : Nat) (st : RunSt) (line : String) (v : Bool) (d : Int) :
    (handleResult Q st line v d).cache = st.cache := by
  unfold handleResult
  split
  · split
    · dsimp only
      split <;> rfl
    · rfl
  · rfl

/-- **C3 counterexample.** With six candidates of one country, quota `0`
and the script's width `MAX_THREADS = 5`, the scheduler of the code probes
all six addresses (under every completion order — the stop flag is never
set), while the batched algorithm claimed by the spec issues no probe at
all, so `validate_country` does not implement that algorithm. -/
theorem batched_refinement_counterexample :
    (validate_country svcOkAll 0 [] lines6).probeLog ≠
      (batched_scheduler svcOkAll MAX_THREADS 0 [] lines6).probeLog ∧
      (validate_country svcOkAll 0 [] lines6).probeLog.length = 6 ∧
      (batched_scheduler svcOkAll MAX_THREADS 0 [] lines6).probeLog.length = 0 := by
  refine ⟨by decide, by decide, by decide⟩

/-- **C3 amended.** The scheduler does not partition the candidate
sequence into successive batches: every candidate of the country is
submitted to a single pool at once, and each task, when it runs, probes its
address exactly when the stop flag is still unset and the address is
uncached — a task that finds the flag set changes nothing.  Batch
boundaries play no role. -/
theorem scheduler_single_pool (svc : String → ProbeOutcome) (Q : Nat) (st : RunSt)
    (line : String) :
    (st.flag = true → countryStep svc Q st line = st) ∧
      (st.flag = false →
        (countryStep svc Q st line).probeLog =
          st.probeLog ++
            (if (cacheLookup st.cache (addrOf line)).isSome then [] else [addrOf line])) := by
  refine ⟨countryStep_of_flag svc Q st line, fun hflag => ?_⟩
  cases hmiss : cacheLookup st.cache (addrOf line) with
  | some r =>
    unfold countryStep
    rw [handleResult_probeLog, check_proxy_hit svc st (addrOf line) r hflag hmiss]
    simp [hmiss]
  | none =>
    unfold countryStep
    rw [handleResult_probeLog, check_proxy_miss_probeLog svc st (addrOf line) hflag hmiss]
    simp [hmiss]

/-- Witness for C3 amended: a fresh state probes the candidate address; a
state with the flag set is left untouched. -/
theorem scheduler_single_pool_witness :
    ((initSt [] []).flag = false ∧
        (countryStep svcOkAll 2 (initSt [] []) "a.a:443#US").probeLog =
          (initSt [] []).probeLog ++
            (if (cacheLookup (initSt [] []).cache (addrOf "a.a:443#US")).isSome then []
              else [addrOf "a.a:443#US"])) ∧
      (stCachedStop.flag = true ∧
        countryStep svcOkAll 2 stCachedStop "a.a:443#US" = stCachedStop) :=
  ⟨⟨rfl, (scheduler_single_pool svcOkAll 2 (initSt [] []) "a.a:443#US").2 rfl⟩,
    ⟨rfl, (scheduler_single_pool svcOkAll 2 stCachedStop "a.a:443#US").1 rfl⟩⟩

/-! ### C6: the cache prevents second probes -/

theorem countryStep_probed_cached (svc : String → ProbeOutcome) (Q : Nat) (st : RunSt)
    (line : String)
    (h : st.probeLog.Nodup ∧ ∀ a ∈ st.probeLog, (cacheLookup st.cache a).isSome) :
    (countryStep svc Q st line).probeLog.Nodup ∧
      ∀ a ∈ (countryStep svc Q st line).probeLog,
        (cacheLookup (countryStep svc Q st line).cache a).isSome := by
  obtain ⟨hnd, hsub⟩ := h
  cases hf : st.flag with
  | true =>
    rw [countryStep_of_flag svc Q st line hf]
    exact ⟨hnd, hsub⟩
  | false =>
    cases hm : cacheLookup st.cache (addrOf line) with
    | some r =>
      unfold countryStep
      rw [check_proxy_hit svc st (addrOf line) r hf hm]
      rw [handleResult_probeLog, handleResult_cache]
      exact ⟨hnd, hsub⟩
    | none =>
      have hnotin : addrOf line ∉ st.probeLog := by
        intro hin
        have := hsub _ hin
        rw [hm] at this
        simp at this
      unfold countryStep
      rw [handleResult_probeLog, handleResult_cache,
        check_proxy_miss_probeLog svc st (addrOf line) hf hm]
      constructor
      · simp [List.nodup_append, hnd, hnotin]
      · intro a ha
        rw [check_proxy_miss_cache svc st (addrOf line) a hf hm]
        rcases List.mem_append.mp ha with hold | hnew
        · by_cases hx : a = addrOf line
          · simp [hx]
          · simp only [hx, if_false]
            exact hsub _ hold
        · simp at hnew
          simp [hnew]

/-- **C6 counterexample.** After the quota-1 run that accepted `a.a:443`
the cache holds the valid result `(True, 50)` for that address, but a
second `check_proxy` call for it (issued for a duplicate candidate once
the stop flag is set) returns `(False, -1)`, not the cached result. -/
theorem cached_result_counterexample :
    stMet.flag = true ∧
      cacheLookup stMet.cache "a.a:443" = some (true, 50) ∧
      (check_proxy svcOkAll stMet "a.a:443").1 = (false, -1) ∧
      (check_proxy svcOkAll stMet "a.a:443").1 ≠ ((true : Bool), (50 : Int)) := by
  refine ⟨by decide, by decide, by decide, by decide⟩

/-- **C6 amended.** A cached address is never probed a second time: a
`check_proxy` call on a cached address leaves the state unchanged (in a
whole run the probe log never repeats an address), and when the stop flag
is unset it returns the cached result — a cached valid result is then
accepted without any new call when the quota is not yet filled.  When the
stop flag is set the call instead returns `(False, -1)` without consulting
the cache (still without probing). -/
theorem cache_no_reprobe :
    (∀ (svc : String → ProbeOutcome) (st : RunSt) (ip : String) (r : Bool × Int),
        cacheLookup st.cache ip = some r →
          (check_proxy svc st ip).2 = st ∧
            (st.flag = false → check_proxy svc st ip = (r, st))) ∧
      (∀ (svc : String → ProbeOutcome) (Q : Nat) (cache : List (String × (Bool × Int)))
          (lines : List String), (validate_country svc Q cache lines).probeLog.Nodup) ∧
      (∀ (svc : String → ProbeOutcome) (Q : Nat) (st : RunSt) (line : String) (d : Int),
        st.flag = false → cacheLookup st.cache (addrOf line) = some (true, d) →
          st.accepted.length < Q →
          (countryStep svc Q st line).accepted = st.accepted ++ [fmtLine line d] ∧
            (countryStep svc Q st line).probeLog = st.probeLog) := by
  refine ⟨?_, ?_, ?_⟩
  · intro svc st ip r hhit
    cases hf : st.flag with
    | true => rw [check_proxy_of_flag svc st ip hf]; exact ⟨rfl, by simp [hf]⟩
    | false =>
      rw [check_proxy_hit svc st ip r hf hhit]
      exact ⟨rfl, fun _ => rfl⟩
  · intro svc Q cache lines
    have := foldl_inv
      (fun st : RunSt => st.probeLog.Nodup ∧
        ∀ a ∈ st.probeLog, (cacheLookup st.cache a).isSome)
      (countryStep svc Q) (countryStep_probed_cached svc Q) lines (initSt cache [])
      ⟨List.nodup_nil, by simp [initSt]⟩
    exact this.1
  · intro svc Q st line d hf hhit hlt
    unfold countryStep
    rw [check_proxy_hit svc st (addrOf line) (true, d) hf hhit]
    refine ⟨?_, handleResult_probeLog Q st line true d⟩
    unfold handleResult
    simp only [if_pos hlt, if_true]
    split <;> rfl

/-- Witness for C6 amended: a warm cache hit returns the cached pair and a
cached valid candidate is accepted without probing. -/
theorem cache_no_reprobe_witness :
    (cacheLookup stWarm.cache "a.a:443" = some (true, 50) ∧ stWarm.flag = false ∧
        stWarm.accepted.length < 2) ∧
      (check_proxy svcOkAll stWarm "a.a:443" = ((true, 50), stWarm) ∧
        (validate_country svcOkAll 2 [] ["a.a:443#US", "a.a:443#US"]).probeLog.Nodup ∧
        (countryStep svcOkAll 2 stWarm "a.a:443#US").accepted =
          stWarm.accepted ++ [fmtLine "a.a:443#US" 50] ∧
        (countryStep svcOkAll 2 stWarm "a.a:443#US").probeLog = stWarm.probeLog) :=
  ⟨⟨by decide, rfl, by decide⟩,
    ⟨(cache_no_reprobe.1 svcOkAll stWarm "a.a:443" (true, 50) (by decide)).2 rfl,
      cache_no_reprobe.2.1 svcOkAll 2 [] ["a.a:443#US", "a.a:443#US"],
      (cache_no_reprobe.2.2 svcOkAll 2 stWarm "a.a:443#US" 50 rfl (by decide) (by decide)).1,
      (cache_no_reprobe.2.2 svcOkAll 2 stWarm "a.a:443#US" 50 rfl (by decide) (by decide)).2⟩⟩

/-! ### C7: output groups sorted by country code -/

theorem addToGroup_keys (m : List (String × List String)) (c line : String) :
    (addToGroup m c line).map Prod.fst =
      if c ∈ m.map Prod.fst then m.map Prod.fst else m.map Prod.fst ++ [c] := by
  induction m with
  | nil => simp [addToGroup]
  | cons p rest ih =>
    obtain ⟨c', ls⟩ := p
    by_cases hc : c' = c
    · subst hc
      simp [addToGroup]
    · rw [List.map_cons]
      unfold addToGroup
      rw [if_neg hc, List.map_cons, ih]
      by_cases hm : c ∈ rest.map Prod.fst
      · simp [hm, hc, Ne.symm hc]
      · simp [hm, hc, Ne.symm hc]

theorem addToGroup_keys_nodup (m : List (String × List String)) (c line : String)
    (h : (m.map Prod.fst).Nodup) : ((addToGroup m c line).map Prod.fst).Nodup := by
  rw [addToGroup_keys]
  split
  · exact h
  · next hmem => simp [List.nodup_append, h, hmem]

theorem groupLines_keys_nodup (lines : List String) :
    ((groupLines lines).map Prod.fst).Nodup := by
  unfold groupLines
  refine foldl_inv (fun m : List (String × List String) => (m.map Prod.fst).Nodup)
    _ ?_ lines [] (by simp)
  intro m line hm
  cases parseLine line with
  | none => simpa using hm
  | some cl => simpa using addToGroup_keys_nodup m cl.1 cl.2 hm

theorem runCountries_keys (svc : String → ProbeOutcome) (Q : Nat)
    (m : List (String × List String)) :
    ∀ (cs : List String) (cache : List (String × (Bool × Int))) (logFile : List String),
      (runCountries svc Q m cache logFile cs).map Prod.fst = cs := by
  intro cs
  induction cs with
  | nil => intro cache logFile; rfl
  | cons c rest ih =>
    intro cache logFile
    unfold runCountries
    rw [List.map_cons, ih]

/-- **C7.** For every input and every probe oracle, the final output of
`filter_ips` is the concatenation of per-country groups whose country
codes appear in strictly ascending lexicographic order — regardless of the
order of the input lines (the statement quantifies over every input). -/
theorem filter_ips_sorted_groups (svc : String → ProbeOutcome) (Q : Nat)
    (input_data : String) :
    List.Sorted (· < ·) ((filterIpsGroups svc Q input_data).map Prod.fst) ∧
      filter_ips svc Q input_data =
        String.intercalate "\n" ((filterIpsGroups svc Q input_data).flatMap Prod.snd) := by
  refine ⟨?_, rfl⟩
  unfold filterIpsGroups
  rw [runCountries_keys]
  have hs : List.Sorted (fun a b : String => a ≤ b)
      (List.insertionSort (fun a b : String => a ≤ b)
        ((groupLines (splitLines input_data)).map Prod.fst)) :=
    List.sorted_insertionSort _ _
  have hperm := List.perm_insertionSort (fun a b : String => a ≤ b)
    ((groupLines (splitLines input_data)).map Prod.fst)
  have hnd := (hperm.nodup_iff).mpr (groupLines_keys_nodup (splitLines input_data))
  exact List.Sorted.lt_of_le hs hnd

/-! ### C8: the line filter of the worklist -/

theorem containsSub_iff (pat : List Char) : ∀ l, containsSub pat l = true ↔ pat <:+: l := by
  intro l
  induction l with
  | nil =>
    unfold containsSub
    rw [List.infix_nil, List.isEmpty_iff]
  | cons c rest ih =>
    unfold containsSub
    rw [Bool.or_eq_true, List.isPrefixOf_iff_prefix, ih, List.infix_cons_iff]

theorem countryOf_append (t : List Char) (a b : Char)
    (ha : isUpperAZ a = true) (hb : isUpperAZ b = true) :
    countryOf (t ++ ['#', a, b]) = some ⟨[a, b]⟩ := by
  unfold countryOf
  have hr : (t ++ ['#', a, b]).reverse = b :: a :: '#' :: t.reverse := by simp
  rw [hr]
  simp [ha, hb]

theorem countryOf_some (l : List Char) (c : String) (h : countryOf l = some c) :
    ∃ t a b, isUpperAZ a = true ∧ isUpperAZ b = true ∧ c = ⟨[a, b]⟩ ∧
      l = t ++ ['#', a, b] := by
  unfold countryOf at h
  cases hr : l.reverse with
  | nil => rw [hr] at h; exact absurd h (by simp)
  | cons b tl =>
    cases tl with
    | nil => rw [hr] at h; exact absurd h (by simp)
    | cons a tl2 =>
      cases tl2 with
      | nil => rw [hr] at h; exact absurd h (by simp)
      | cons hsh rest =>
        rw [hr] at h
        simp only at h
        split at h
        · next hcond =>
          obtain ⟨⟨hh, ha⟩, hb⟩ :
              (hsh = '#' ∧ isUpperAZ a = true) ∧ isUpperAZ b = true := by
            constructor
            · constructor
              · exact (Bool.and_eq_true _ _).mp ((Bool.and_eq_true _ _).mp hcond).1 |>.1
                  |> fun hx => by
                    have := ((Bool.and_eq_true _ _).mp ((Bool.and_eq_true _ _).mp hcond).1).1
                    exact of_decide_eq_true this
              · exact ((Bool.and_eq_true _ _).mp ((Bool.and_eq_true _ _).mp hcond).1).2
            · exact ((Bool.and_eq_true _ _).mp hcond).2
          refine ⟨rest.reverse, a, b, ha, hb, by injection h with h2; exact h2.symm, ?_⟩
          subst hh
          have : l = l.reverse.reverse := (List.reverse_reverse l).symm
          rw [this, hr]
          simp
        · exact absurd h (by simp)

/-- **C8.** The worklist keeps an input line exactly when its stripped
content contains `":443#"` and ends with `'#'` followed by exactly two
uppercase letters; every other line — empty, malformed, wrong port, bad
country code — is silently discarded.  A kept line is the stripped content
itself, grouped under the two trailing letters as its country code. -/
theorem parse_line_keeps (line : String) :
    ((parseLine line).isSome ↔
      ((":443#".data <:+: (pyStrip line).data) ∧
        ∃ t a b, isUpperAZ a = true ∧ isUpperAZ b = true ∧
          (pyStrip line).data = t ++ ['#', a, b])) ∧
      (∀ c kept, parseLine line = some (c, kept) →
        kept = pyStrip line ∧
          ∃ t a b, isUpperAZ a = true ∧ isUpperAZ b = true ∧ c = ⟨[a, b]⟩ ∧
            kept.data = t ++ ['#', a, b]) := by
  constructor
  · unfold parseLine
    by_cases h0 : (pyStrip line).data = []
    · rw [if_pos h0]
      simp only [Option.isSome_none, Bool.false_eq_true, false_iff]
      rintro ⟨-, t, a, b, -, -, hdata⟩
      rw [h0] at hdata
      exact absurd hdata (by simp)
    · rw [if_neg h0]
      by_cases hc : containsSub ":443#".data (pyStrip line).data = true
      · rw [hc]
        simp only [Bool.not_true, Bool.false_eq_true, if_false]
        cases hco : countryOf (pyStrip line).data with
        | none =>
          simp only [Option.isSome_none, Bool.false_eq_true, false_iff]
          rintro ⟨-, t, a, b, ha, hb, hdata⟩
          rw [hdata, countryOf_append t a b ha hb] at hco
          exact absurd hco (by simp)
        | some c =>
          simp only [Option.isSome_some, true_iff]
          obtain ⟨t, a, b, ha, hb, -, hdata⟩ := countryOf_some _ _ hco
          exact ⟨(containsSub_iff _ _).mp hc, t, a, b, ha, hb, hdata⟩
      · have hcf : containsSub ":443#".data (pyStrip line).data = false :=
          Bool.not_eq_true _ ▸ Bool.eq_false_iff.mpr hc
        rw [hcf]
        simp only [Bool.not_false, if_true, Option.isSome_none, Bool.false_eq_true, false_iff]
        rintro ⟨hinf, -⟩
        exact hc ((containsSub_iff _ _).mpr hinf)
  · intro c kept h
    unfold parseLine at h
    by_cases h0 : (pyStrip line).data = []
    · rw [if_pos h0] at h
      exact absurd h (by simp)
    · rw [if_neg h0] at h
      by_cases hc : containsSub ":443#".data (pyStrip line).data = true
      · rw [hc] at h
        simp only [Bool.not_true, Bool.false_eq_true, if_false] at h
        cases hco : countryOf (pyStrip line).data with
        | none => rw [hco] at h; exact absurd h (by simp)
        | some c' =>
          rw [hco] at h
          injection h with h1
          have hcc : c' = c := congrArg Prod.fst h1
          have hkept : pyStrip line = kept := congrArg Prod.snd h1
          subst hcc
          obtain ⟨t, a, b, ha, hb, hceq, hdata⟩ := countryOf_some _ _ hco
          exact ⟨hkept.symm, t, a, b, ha, hb, hceq, hkept ▸ hdata⟩
      · have hcf : containsSub ":443#".data (pyStrip line).data = false :=
          Bool.not_eq_true _ ▸ Bool.eq_false_iff.mpr hc
        rw [hcf] at h
        simp only [Bool.not_false, if_true] at h
        exact absurd h (by simp)

/-- Witness for C8: a well-formed line is kept under its country code, a
line with a three-letter code is dropped, and the kept form of a padded
line is its stripped content ending in the country suffix. -/
theorem parse_line_keeps_witness :
    (parseLine " 1.2.3.4:443#US " = some ("US", "1.2.3.4:443#US") ∧
        (parseLine "1.2.3.4:443#USA").isSome = false) ∧
      ((parseLine "9.9.9.9:443#DE").isSome ↔
        ((":443#".data <:+: (pyStrip "9.9.9.9:443#DE").data) ∧
          ∃ t a b, isUpperAZ a = true ∧ isUpperAZ b = true ∧
            (pyStrip "9.9.9.9:443#DE").data = t ++ ['#', a, b])) ∧
      ("1.2.3.4:443#US" = pyStrip " 1.2.3.4:443#US " ∧
        ∃ t a b, isUpperAZ a = true ∧ isUpperAZ b = true ∧ "US" = ⟨[a, b]⟩ ∧
          ("1.2.3.4:443#US" : String).data = t ++ ['#', a, b]) :=
  ⟨⟨by decide, by decide⟩, (parse_line_keeps "9.9.9.9:443#DE").1,
    (parse_line_keeps " 1.2.3.4:443#US ").2 "US" "1.2.3.4:443#US" (by decide)⟩
